import Mathlib

/-!
Shallow embedding of the Superstore dashboard's data pipeline
(`src/main.py`): the CSV loader (`load_dataset`), the feature-engineering
step (`add_feature_engineering`), the feature selector (`prepare_features`)
and the two prediction blocks (classification / regression), together with
proofs of the specified properties.

Tables model pandas DataFrames as ordered lists of named columns; a cell is
a string, an integer, a rational (modelling float64), a calendar date
(modelling a Timestamp) or a missing marker (NaN / NaT).
-/

namespace Superstore

/-- A calendar date, modelling a pandas `Timestamp` (date resolution). -/
structure Date where
  year : Int
  month : Int
  day : Int
deriving DecidableEq

/-- A cell of a DataFrame. `rat` models float64 values exactly (all values
arising in the pipeline — day counts and their medians — are exact in
float64), `missing` models NaN / NaT. -/
inductive Value where
  | str : String → Value
  | int : Int → Value
  | rat : Rat → Value
  | date : Date → Value
  | missing : Value
deriving DecidableEq

def Value.isMissing : Value → Bool
  | .missing => true
  | _ => false

/-- The rational carried by a non-missing numeric cell, `none` otherwise
(models selecting the non-NaN entries of a float64 column). -/
def Value.toRat? : Value → Option Rat
  | .rat q => some q
  | _ => none

/-- Gregorian leap year. -/
def isLeap (y : Int) : Bool :=
  (y % 4 == 0 && y % 100 != 0) || y % 400 == 0

def daysInMonth (y m : Int) : Int :=
  if m == 2 then (if isLeap y then 29 else 28)
  else if m == 4 || m == 6 || m == 9 || m == 11 then 30
  else 31

/-- Split a character list at each dash (helper for ISO date parsing). -/
def splitDash : List Char → List (List Char)
  | [] => [[]]
  | c :: cs =>
    let r := splitDash cs
    if c = '-' then [] :: r
    else
      match r with
      | [] => [[c]]
      | h :: t => (c :: h) :: t

def digitsToNat? (l : List Char) : Option Nat :=
  if l ≠ [] ∧ l.all Char.isDigit then
    some (l.foldl (fun a c => a * 10 + (c.toNat - 48)) 0)
  else none

/-- Parse an ISO `YYYY-MM-DD` string into a date, validating the calendar.
Models the successful path of `pd.to_datetime` for ISO-formatted inputs;
any string it cannot parse stands for an input pandas coerces to NaT. -/
def parseDate (s : String) : Option Date :=
  match (splitDash s.toList).map digitsToNat? with
  | [some y, some m, some d] =>
    if 1 ≤ (m : Int) ∧ (m : Int) ≤ 12 ∧ 1 ≤ (d : Int) ∧ (d : Int) ≤ daysInMonth y m
    then some ⟨y, m, d⟩ else none
  | _ => none

/-- `pd.to_datetime(cell, errors="coerce")`: dates stay dates, parsable
strings become dates, everything else (unparsable strings, NaN, non-date
scalars) becomes NaT. -/
def toDatetime (v : Value) : Value :=
  match v with
  | .date d => .date d
  | .str s =>
    match parseDate s with
    | some d => .date d
    | none => .missing
  | _ => .missing

/-- `.dt.year` of one cell. -/
def yearOf (v : Value) : Value :=
  match v with
  | .date d => .int d.year
  | _ => .missing

/-- `.dt.month` of one cell. -/
def monthOf (v : Value) : Value :=
  match v with
  | .date d => .int d.month
  | _ => .missing

/-- Days since 1970-01-01 of a Gregorian date (Howard Hinnant's civil-days
algorithm, as used by timestamp arithmetic). -/
def daysFromCivil (d : Date) : Int :=
  let y := if d.month ≤ 2 then d.year - 1 else d.year
  let era := (if 0 ≤ y then y else y - 399) / 400
  let yoe := y - era * 400
  let mp := (d.month + 9) % 12
  let doy := (153 * mp + 2) / 5 + d.day - 1
  let doe := yoe * 365 + yoe / 4 - yoe / 100 + doy
  era * 146097 + doe - 719468

/-- One cell of `(df["Ship Date"] - df["Order Date"]).dt.days`: the whole-day
difference when both dates are present, NaN otherwise (float64 column). -/
def shipDays (ship order : Value) : Value :=
  match ship, order with
  | .date s, .date o => .rat ((daysFromCivil s - daysFromCivil o : Int) : Rat)
  | _, _ => .missing

/-- Insert into a sorted list of rationals (helper for the median). -/
def insertSorted (x : Rat) : List Rat → List Rat
  | [] => [x]
  | y :: ys => if x ≤ y then x :: y :: ys else y :: insertSorted x ys

def sortRats (l : List Rat) : List Rat := l.foldr insertSorted []

/-- `Series.median()` over the non-missing entries: middle element of the
sorted values for odd count, mean of the two middle elements for even
count, `none` (NaN) for an empty list. -/
def pandasMedian (l : List Rat) : Option Rat :=
  let s := sortRats l
  let n := s.length
  if n = 0 then none
  else if n % 2 = 1 then s[n / 2]?
  else do
    let a ← s[n / 2 - 1]?
    let b ← s[n / 2]?
    pure ((a + b) / 2)

/-- A DataFrame: ordered named columns, each a list of cells. -/
structure Table where
  cols : List (String × List Value)
deriving DecidableEq

def Table.columns (t : Table) : List String := t.cols.map Prod.fst

def Table.hasCol (t : Table) (c : String) : Bool :=
  t.cols.any (fun p => p.1 == c)

def Table.getCol (t : Table) (c : String) : Option (List Value) :=
  (t.cols.find? (fun p => p.1 == c)).map Prod.snd

def Table.getColD (t : Table) (c : String) : List Value :=
  (t.getCol c).getD []

/-- Row count: the index length, i.e. the length of the first column. -/
def Table.nrows (t : Table) : Nat :=
  match t.cols with
  | [] => 0
  | p :: _ => p.2.length

/-- Well-formed DataFrame: all columns share the row count and column names
are distinct (pandas `read_csv` mangles duplicate headers). -/
def Table.WF (t : Table) : Prop :=
  (∀ p ∈ t.cols, p.2.length = t.nrows) ∧ t.columns.Nodup

instance (t : Table) : Decidable t.WF := by
  unfold Table.WF; infer_instance

/-- `df[c] = series`: overwrite the column in place when the name exists,
append it at the end otherwise (index-aligned assignment, no length
check). -/
def Table.setCol (t : Table) (c : String) (vs : List Value) : Table :=
  if t.hasCol c then
    ⟨t.cols.map (fun p => if p.1 == c then (p.1, vs) else p)⟩
  else ⟨t.cols ++ [(c, vs)]⟩

/-- The pipeline's failure taxonomy, as the code raises it. The spec's
names map as: `schemaError` = SchemaError (the ValueError of line 34),
`keyError` = the pandas KeyError `df.drop` raises on an absent column,
`lengthMismatch` = PredictionError (the ValueError pandas raises when an
assigned array's length differs from the index length), `fileNotFound` and
`parseFailed` = DatasetLoadError. -/
inductive Err where
  | schemaError (missing : List String)
  | keyError (col : String)
  | lengthMismatch (got expected : Nat)
  | fileNotFound (path : String)
  | parseFailed
deriving DecidableEq

/-- `df[c] = array`: pandas checks an array-valued assignment against the
index length and raises ValueError on mismatch. -/
def Table.setColChecked (t : Table) (c : String) (vs : List Value) :
    Except Err Table :=
  if vs.length = t.nrows then .ok (t.setCol c vs)
  else .error (.lengthMismatch vs.length t.nrows)

/-- `df.drop(columns=[c])`: raises KeyError when the column is absent. -/
def Table.dropCol (t : Table) (c : String) : Except Err Table :=
  if t.hasCol c then .ok ⟨t.cols.filter (fun p => !(p.1 == c))⟩
  else .error (.keyError c)

def requiredCols : List String := ["Order Date", "Ship Date"]

/-- `pd.to_datetime(df["Order Date"], errors="coerce")` as a list. -/
def orderDatesParsed (df : Table) : List Value :=
  (df.getColD "Order Date").map toDatetime

/-- `pd.to_datetime(df["Ship Date"], errors="coerce")` as a list. -/
def shipDatesParsed (df : Table) : List Value :=
  (df.getColD "Ship Date").map toDatetime

/-- `(df["Ship Date"] - df["Order Date"]).dt.days` over the parsed
columns. -/
def shipDaysRaw (df : Table) : List Value :=
  List.zipWith shipDays (shipDatesParsed df) (orderDatesParsed df)

/-- `s.fillna(s.median())` for the ShipDays column: every missing entry is
replaced by the median of the non-missing entries; when all entries are
missing the median is itself NaN and filling changes nothing. -/
def fillShipDays (s : List Value) : List Value :=
  let fill :=
    match pandasMedian (s.filterMap Value.toRat?) with
    | some m => Value.rat m
    | none => Value.missing
  s.map (fun v => if v.isMissing then fill else v)

/-- Lines 36–41 of `add_feature_engineering`: parse the two date columns in
place, then derive OrderYear, OrderMonth and ShipDays. -/
def enrichedCore (df : Table) : Table :=
  ((((df.setCol "Order Date" (orderDatesParsed df)).setCol
      "Ship Date" (shipDatesParsed df)).setCol
      "OrderYear" ((orderDatesParsed df).map yearOf)).setCol
      "OrderMonth" ((orderDatesParsed df).map monthOf)).setCol
      "ShipDays" (shipDaysRaw df)

/-- `add_feature_engineering` (src/main.py lines 28–46): check the required
columns, parse dates, derive the three features, and median-fill ShipDays
when any entry is missing. -/
def add_feature_engineering (df : Table) : Except Err Table :=
  let missing := requiredCols.filter (fun c => !df.hasCol c)
  if missing.isEmpty then
    let t := enrichedCore df
    if (shipDaysRaw df).any Value.isMissing then
      .ok (t.setCol "ShipDays" (fillShipDays (shipDaysRaw df)))
    else .ok t
  else .error (.schemaError missing)

/-- One guarded drop of the loop in `prepare_features`:
`if c in df.columns: df = df.drop(columns=[c])`. -/
def dropIfPresent (t : Table) (c : String) : Except Err Table :=
  if t.hasCol c then t.dropCol c else .ok t

/-- `prepare_features` (src/main.py lines 48–59): drop every configured
column that is present, then the target column if present. -/
def prepare_features (df_enriched : Table) (drop_cols : List String)
    (target_col : String) : Except Err Table := do
  let t ← drop_cols.foldlM dropIfPresent df_enriched
  dropIfPresent t target_col

/-- Removing one named column unconditionally (keeps everything else, in
order); `dropIfPresent` always lands here (proof layer). -/
def Table.eraseCol (t : Table) (c : String) : Table :=
  ⟨t.cols.filter (fun p => !(p.1 == c))⟩

/-- Folding `eraseCol` over the configured drop list (proof layer). -/
def dropAll (t : Table) (l : List String) : Table :=
  l.foldl Table.eraseCol t

/-- An opaque model bundle as the PKL files store it: a predictor
capability plus its input-shaping metadata. -/
structure Artifact where
  predict : Table → List Value
  drop_cols : List String
  target_col : String

/-- The "Prediksi Segment" block (src/main.py lines 160–166): select the
features, predict, copy the raw table and assign the predictions to the
fixed column "Predicted Segment". -/
def run_prediction_cls (raw enriched : Table) (a : Artifact) :
    Except Err Table := do
  let xpred ← prepare_features enriched a.drop_cols a.target_col
  raw.setColChecked "Predicted Segment" (a.predict xpred)

/-- The "Prediksi Sales" block (src/main.py lines 215–221): identical but
the output column is "Predicted " followed by the artifact's target. -/
def run_prediction_reg (raw enriched : Table) (a : Artifact) :
    Except Err Table := do
  let xpred ← prepare_features enriched a.drop_cols a.target_col
  raw.setColChecked ("Predicted " ++ a.target_col) (a.predict xpred)

/-- What the environment lets `load_dataset` observe about a CSV path:
whether the path exists, and the table each of the two read attempts would
produce (`none` = that `pd.read_csv` call raises). `readLatin1` is
`pd.read_csv(p, encoding="latin1")`, `readUtf8` the default-encoding
`pd.read_csv(p)`. -/
structure CsvFile where
  pathExists : Bool
  readLatin1 : Option Table
  readUtf8 : Option Table

/-- `load_dataset` (src/main.py lines 15–23): missing path raises; then the
latin1 read is attempted first and the default UTF-8 read only on its
failure; if that fails too the exception propagates. -/
def load_dataset (path : String) (f : CsvFile) : Except Err Table :=
  if f.pathExists then
    match f.readLatin1 with
    | some t => .ok t
    | none =>
      match f.readUtf8 with
      | some t => .ok t
      | none => .error .parseFailed
  else .error (.fileNotFound path)

/-- The loader as the spec's words describe it (§6: "readable as UTF-8 or,
if that fails, a Latin-1-compatible encoding, falling back automatically"):
UTF-8 first, latin1 as a fallback. Stated only to be compared with
`load_dataset`. -/
def load_dataset_specOrder (path : String) (f : CsvFile) : Except Err Table :=
  if f.pathExists then
    match f.readUtf8 with
    | some t => .ok t
    | none =>
      match f.readLatin1 with
      | some t => .ok t
      | none => .error .parseFailed
  else .error (.fileNotFound path)

/-! Concrete inputs used to instantiate the theorems below. -/

/-- A one-row raw table with the two date columns and two ordinary columns. -/
def exRaw : Table :=
  ⟨[("Row ID", [.int 1]), ("Order Date", [.str "2023-01-05"]),
    ("Ship Date", [.str "2023-01-10"]), ("Segment", [.str "Consumer"])]⟩

/-- A raw table that already contains an "OrderYear" column. -/
def exPreYear : Table :=
  ⟨[("Order Date", [.str "2023-01-05"]), ("Ship Date", [.str "2023-01-10"]),
    ("OrderYear", [.int 99])]⟩

/-- Spec §8 scenario 1: three rows, the third ship date unparsable. -/
def exImpute : Table :=
  ⟨[("Order Date", [.str "2023-01-05", .str "2023-02-01", .str "2023-03-15"]),
    ("Ship Date", [.str "2023-01-10", .str "2023-02-03", .str "na"])]⟩

/-- Every ship date unparsable: every derived ShipDays value is missing. -/
def exAllMissing : Table :=
  ⟨[("Order Date", [.str "2023-01-05", .str "2023-02-01"]),
    ("Ship Date", [.str "na", .str "-"])]⟩

/-- A table containing a "Segment" column, for the selector instances. -/
def exSeg : Table :=
  ⟨[("Row ID", [.int 1]), ("Segment", [.str "Consumer"]),
    ("Sales", [.rat 10]), ("ShipDays", [.rat 3])]⟩

/-- A raw table missing the "Ship Date" column. -/
def exNoShip : Table := ⟨[("Order Date", [.str "2023-01-05"])]⟩

/-- A one-row, one-column raw table. -/
def exRawA : Table := ⟨[("A", [.int 1])]⟩

/-- A raw table that already holds a "Predicted Segment" column. -/
def exRawP : Table := ⟨[("A", [.int 1]), ("Predicted Segment", [.str "old"])]⟩

/-- A stub artifact predicting one constant value. -/
def stubArtifact : Artifact := ⟨fun _ => [.int 7], [], "Sales"⟩

/-- A stub classification artifact predicting the constant "Consumer". -/
def consArtifact : Artifact := ⟨fun _ => [.str "Consumer"], [], "Segment"⟩

/-- A stub artifact returning two predictions regardless of input size. -/
def badArtifact : Artifact := ⟨fun _ => [.int 1, .int 2], [], "Sales"⟩

def tblA : Table := ⟨[("X", [.int 1])]⟩

def tblB : Table := ⟨[("X", [.int 2])]⟩

/-- A CSV file both encodings parse, to different tables. -/
def exCsv : CsvFile := ⟨true, some tblB, some tblA⟩

/-! Helper lemmas about the table operations. -/

theorem find?_overwrite_self (l : List (String × List Value)) (c : String)
    (vs : List Value) :
    (l.map fun p => if p.1 == c then (p.1, vs) else p).find? (fun p => p.1 == c)
      = (l.find? (fun p => p.1 == c)).map (fun p => (p.1, vs)) := by
  induction l with
  | nil => rfl
  | cons hd tl ih =>
    simp only [List.map_cons, List.find?_cons]
    cases hq : (hd.1 == c) with
    | true => simp only [hq, if_true, Option.map_some']
    | false =>
      simp only [hq, Bool.false_eq_true, if_false]
      exact ih

theorem find?_overwrite_ne (l : List (String × List Value)) (c c' : String)
    (vs : List Value) (h : c' ≠ c) :
    (l.map fun p => if p.1 == c then (p.1, vs) else p).find? (fun p => p.1 == c')
      = l.find? (fun p => p.1 == c') := by
  induction l with
  | nil => rfl
  | cons hd tl ih =>
    simp only [List.map_cons, List.find?_cons]
    cases hq : (hd.1 == c') with
    | true =>
      have hc : (hd.1 == c) = false := by
        rw [beq_eq_false_iff_ne]
        exact fun he => h ((beq_iff_eq.mp hq) ▸ he)
      simp only [hc, Bool.false_eq_true, if_false, hq]
    | false =>
      cases hc : (hd.1 == c) with
      | true =>
        simp only [hc, if_true, hq]
        exact ih
      | false =>
        simp only [hc, Bool.false_eq_true, if_false, hq]
        exact ih

theorem any_fst_overwrite (l : List (String × List Value)) (c c' : String)
    (vs : List Value) :
    (l.map fun p => if p.1 == c then (p.1, vs) else p).any (fun p => p.1 == c')
      = l.any (fun p => p.1 == c') := by
  induction l with
  | nil => rfl
  | cons hd tl ih =>
    have hfst : ((if hd.1 == c then (hd.1, vs) else hd) : String × List Value).1
        = hd.1 := by
      cases hc : (hd.1 == c) <;> simp [hc]
    rw [List.map_cons, List.any_cons, List.any_cons, hfst, ih]

theorem hasCol_find?_ne_none (t : Table) (c : String) (h : t.hasCol c = true) :
    t.cols.find? (fun p => p.1 == c) ≠ none := by
  intro hn
  simp only [Table.hasCol] at h
  obtain ⟨p, hp, hpc⟩ := List.any_eq_true.mp h
  exact (List.find?_eq_none.mp hn p hp) hpc

theorem not_hasCol_find?_eq_none (t : Table) (c : String) (h : t.hasCol c = false) :
    t.cols.find? (fun p => p.1 == c) = none := by
  simp only [Table.hasCol] at h
  refine List.find?_eq_none.mpr ?_
  intro p hp
  exact List.any_eq_false.mp h p hp

theorem getCol_setCol_self (t : Table) (c : String) (vs : List Value) :
    (t.setCol c vs).getCol c = some vs := by
  unfold Table.setCol
  by_cases h : t.hasCol c = true
  · simp only [h, if_true, Table.getCol]
    rw [find?_overwrite_self]
    cases hf : t.cols.find? (fun p => p.1 == c) with
    | none => exact absurd hf (hasCol_find?_ne_none t c h)
    | some p => simp
  · simp only [Bool.not_eq_true] at h
    simp only [h, Bool.false_eq_true, if_false, Table.getCol]
    rw [List.find?_append, not_hasCol_find?_eq_none t c h]
    simp [List.find?_cons]

theorem getCol_setCol_ne (t : Table) (c c' : String) (vs : List Value)
    (h : c' ≠ c) : (t.setCol c vs).getCol c' = t.getCol c' := by
  unfold Table.setCol
  by_cases hc : t.hasCol c = true
  · simp only [hc, if_true, Table.getCol]
    rw [find?_overwrite_ne _ _ _ _ h]
  · simp only [Bool.not_eq_true] at hc
    simp only [hc, Bool.false_eq_true, if_false, Table.getCol]
    rw [List.find?_append]
    have hcc : ((c, vs).1 == c') = false := by
      rw [beq_eq_false_iff_ne]
      intro he
      exact h (Eq.symm he)
    have hone : List.find? (fun p => p.1 == c') [(c, vs)] = none := by
      simp only [List.find?_cons, List.find?_nil, hcc]
    rw [hone]
    cases t.cols.find? (fun p => p.1 == c') <;> rfl

theorem columns_setCol_of_mem (t : Table) (c : String) (vs : List Value)
    (h : t.hasCol c = true) : (t.setCol c vs).columns = t.columns := by
  unfold Table.setCol
  simp only [h, if_true, Table.columns, List.map_map]
  refine List.map_congr_left ?_
  intro p _
  show Prod.fst (if p.1 == c then (p.1, vs) else p) = p.1
  cases hp : (p.1 == c) <;> simp [hp]

theorem columns_setCol_of_not_mem (t : Table) (c : String) (vs : List Value)
    (h : t.hasCol c = false) : (t.setCol c vs).columns = t.columns ++ [c] := by
  unfold Table.setCol
  simp only [h, Bool.false_eq_true, if_false, Table.columns, List.map_append,
    List.map_cons, List.map_nil]

theorem hasCol_setCol_ne (t : Table) (c c' : String) (vs : List Value)
    (h : c' ≠ c) : (t.setCol c vs).hasCol c' = t.hasCol c' := by
  by_cases hc : t.hasCol c = true
  · simp only [Table.hasCol] at hc
    unfold Table.setCol Table.hasCol
    simp only [Table.hasCol, hc, if_true]
    exact any_fst_overwrite t.cols c c' vs
  · simp only [Bool.not_eq_true, Table.hasCol] at hc
    unfold Table.setCol Table.hasCol
    simp only [Table.hasCol, hc, Bool.false_eq_true, if_false, List.any_append,
      List.any_cons, List.any_nil, Bool.or_false]
    have : ((c, vs).1 == c') = false := by
      rw [beq_eq_false_iff_ne]
      intro he
      exact h (Eq.symm he)
    rw [this, Bool.or_false]

theorem length_forall_setCol (t : Table) (c : String) (vs : List Value) {n : Nat}
    (hall : ∀ p ∈ t.cols, p.2.length = n) (hv : vs.length = n) :
    ∀ p ∈ (t.setCol c vs).cols, p.2.length = n := by
  intro p hp
  unfold Table.setCol at hp
  by_cases hc : t.hasCol c = true
  · simp only [hc, if_true] at hp
    obtain ⟨q, hq, hfq⟩ := List.mem_map.mp hp
    by_cases h1 : q.1 = c
    · rw [← hfq, if_pos (beq_iff_eq.mpr h1)]
      exact hv
    · rw [← hfq, if_neg (by simp [h1])]
      exact hall q hq
  · simp only [Bool.not_eq_true] at hc
    simp only [hc, Bool.false_eq_true, if_false, List.mem_append,
      List.mem_singleton] at hp
    cases hp with
    | inl hin => exact hall p hin
    | inr heq => rw [heq]; exact hv

theorem nrows_eq_of_cols (t : Table) {n : Nat} (hne : t.cols ≠ [])
    (hall : ∀ p ∈ t.cols, p.2.length = n) : t.nrows = n := by
  unfold Table.nrows
  cases h : t.cols with
  | nil => exact absurd h hne
  | cons hd tl => exact hall hd (h ▸ List.mem_cons_self hd tl)

theorem getColD_length (t : Table) (hWF : t.WF) (c : String)
    (h : t.hasCol c = true) : (t.getColD c).length = t.nrows := by
  unfold Table.getColD Table.getCol
  cases hf : t.cols.find? (fun p => p.1 == c) with
  | none => exact absurd hf (hasCol_find?_ne_none t c h)
  | some p =>
    simp only [Option.map_some', Option.getD_some]
    exact hWF.1 p (List.mem_of_find?_eq_some hf)

theorem hasCol_of_getCol_some (t : Table) (c : String) (vs : List Value)
    (h : t.getCol c = some vs) : t.hasCol c = true := by
  unfold Table.getCol at h
  cases hf : t.cols.find? (fun p => p.1 == c) with
  | none => rw [hf] at h; exact absurd h (by simp)
  | some p =>
    simp only [Table.hasCol]
    exact List.any_eq_true.mpr
      ⟨p, List.mem_of_find?_eq_some hf, @List.find?_some _ (fun q => q.1 == c) p t.cols hf⟩

theorem cols_ne_nil_of_columns_ne_nil (t : Table) (h : t.columns ≠ []) :
    t.cols ≠ [] := by
  intro hc
  apply h
  rw [Table.columns, hc]
  rfl

/-! Lemmas about the derived feature columns. -/

theorem insertSorted_length (x : Rat) (l : List Rat) :
    (insertSorted x l).length = l.length + 1 := by
  induction l with
  | nil => rfl
  | cons y ys ih =>
    unfold insertSorted
    by_cases h : x ≤ y
    · rw [if_pos h]
      rfl
    · rw [if_neg h, List.length_cons, List.length_cons, ih]

theorem sortRats_length (l : List Rat) : (sortRats l).length = l.length := by
  induction l with
  | nil => rfl
  | cons x xs ih =>
    show (insertSorted x (sortRats xs)).length = xs.length + 1
    rw [insertSorted_length, ih]

theorem pandasMedian_isSome (l : List Rat) (h : l ≠ []) :
    ∃ m, pandasMedian l = some m := by
  unfold pandasMedian
  have hpos : 0 < (sortRats l).length := by
    rw [sortRats_length]
    exact List.length_pos.mpr h
  have hn0 : ¬ (sortRats l).length = 0 := Nat.pos_iff_ne_zero.mp hpos
  rw [if_neg hn0]
  have h1 : (sortRats l).length / 2 < (sortRats l).length :=
    Nat.div_lt_self hpos (by decide)
  have h2 : (sortRats l).length / 2 - 1 < (sortRats l).length :=
    Nat.lt_of_le_of_lt (Nat.sub_le _ _) h1
  by_cases hodd : (sortRats l).length % 2 = 1
  · rw [if_pos hodd, List.getElem?_eq_getElem h1]
    exact ⟨_, rfl⟩
  · rw [if_neg hodd, List.getElem?_eq_getElem h2, List.getElem?_eq_getElem h1]
    exact ⟨_, rfl⟩

theorem mem_zipWith_shipDays (as bs : List Value) (v : Value)
    (h : v ∈ List.zipWith shipDays as bs) :
    v = .missing ∨ ∃ q, v = .rat q := by
  induction as generalizing bs with
  | nil => simp [List.zipWith] at h
  | cons a as' ih =>
    cases bs with
    | nil => simp [List.zipWith] at h
    | cons b bs' =>
      rw [List.zipWith_cons_cons, List.mem_cons] at h
      cases h with
      | inl he =>
        subst he
        unfold shipDays
        cases a <;> cases b <;> simp
      | inr hmem => exact ih bs' hmem

theorem filterMap_toRat_ne_nil (s : List Value)
    (hshape : ∀ v ∈ s, v = .missing ∨ ∃ q, v = .rat q)
    (hnotall : s.all Value.isMissing = false) :
    s.filterMap Value.toRat? ≠ [] := by
  obtain ⟨v, hv, hnm⟩ := List.all_eq_false.mp hnotall
  cases hshape v hv with
  | inl he =>
    subst he
    exact absurd rfl hnm
  | inr hq =>
    obtain ⟨q, hq⟩ := hq
    subst hq
    exact List.ne_nil_of_mem (List.mem_filterMap.mpr ⟨.rat q, hv, rfl⟩)

theorem filterMap_toRat_eraseIdx (s : List Value) (k : Nat) (hk : k < s.length)
    (hmiss : s.get ⟨k, hk⟩ = .missing) :
    (s.eraseIdx k).filterMap Value.toRat? = s.filterMap Value.toRat? := by
  induction s generalizing k with
  | nil => exact absurd hk (by simp)
  | cons a t ih =>
    cases k with
    | zero =>
      have ha : a = .missing := hmiss
      subst ha
      show t.filterMap Value.toRat? = List.filterMap Value.toRat? (Value.missing :: t)
      rw [List.filterMap_cons]
      rfl
    | succ k' =>
      have hk' : k' < t.length := Nat.lt_of_succ_lt_succ hk
      show List.filterMap Value.toRat? (a :: t.eraseIdx k')
        = List.filterMap Value.toRat? (a :: t)
      rw [List.filterMap_cons, List.filterMap_cons, ih k' hk' hmiss]

theorem fillShipDays_eq_of_median (s : List Value) (m : Rat)
    (h : pandasMedian (s.filterMap Value.toRat?) = some m) :
    fillShipDays s = s.map (fun v => if v.isMissing then Value.rat m else v) := by
  unfold fillShipDays
  rw [h]

theorem length_fillShipDays (s : List Value) : (fillShipDays s).length = s.length := by
  unfold fillShipDays
  rw [List.length_map]

theorem length_shipDaysRaw (df : Table) (hWF : df.WF)
    (hOD : df.hasCol "Order Date" = true) (hSD : df.hasCol "Ship Date" = true) :
    (shipDaysRaw df).length = df.nrows := by
  unfold shipDaysRaw shipDatesParsed orderDatesParsed
  rw [List.length_zipWith, List.length_map, List.length_map,
    getColD_length df hWF _ hOD, getColD_length df hWF _ hSD, Nat.min_self]


/-! Facts about `enrichedCore`. -/

theorem enrichedCore_getCol_shipDays (df : Table) :
    (enrichedCore df).getCol "ShipDays" = some (shipDaysRaw df) := by
  unfold enrichedCore
  exact getCol_setCol_self _ _ _

theorem enrichedCore_getCol_orderMonth (df : Table) :
    (enrichedCore df).getCol "OrderMonth"
      = some ((orderDatesParsed df).map monthOf) := by
  unfold enrichedCore
  rw [getCol_setCol_ne _ _ _ _ (by decide)]
  exact getCol_setCol_self _ _ _

theorem enrichedCore_getCol_orderYear (df : Table) :
    (enrichedCore df).getCol "OrderYear"
      = some ((orderDatesParsed df).map yearOf) := by
  unfold enrichedCore
  rw [getCol_setCol_ne _ _ _ _ (by decide), getCol_setCol_ne _ _ _ _ (by decide)]
  exact getCol_setCol_self _ _ _

theorem enrichedCore_getCol_shipDate (df : Table) :
    (enrichedCore df).getCol "Ship Date" = some (shipDatesParsed df) := by
  unfold enrichedCore
  rw [getCol_setCol_ne _ _ _ _ (by decide), getCol_setCol_ne _ _ _ _ (by decide),
    getCol_setCol_ne _ _ _ _ (by decide)]
  exact getCol_setCol_self _ _ _

theorem enrichedCore_getCol_orderDate (df : Table) :
    (enrichedCore df).getCol "Order Date" = some (orderDatesParsed df) := by
  unfold enrichedCore
  rw [getCol_setCol_ne _ _ _ _ (by decide), getCol_setCol_ne _ _ _ _ (by decide),
    getCol_setCol_ne _ _ _ _ (by decide), getCol_setCol_ne _ _ _ _ (by decide)]
  exact getCol_setCol_self _ _ _

theorem enrichedCore_getCol_other (df : Table) (c : String)
    (h1 : c ≠ "Order Date") (h2 : c ≠ "Ship Date") (h3 : c ≠ "OrderYear")
    (h4 : c ≠ "OrderMonth") (h5 : c ≠ "ShipDays") :
    (enrichedCore df).getCol c = df.getCol c := by
  unfold enrichedCore
  rw [getCol_setCol_ne _ _ _ _ h5, getCol_setCol_ne _ _ _ _ h4,
    getCol_setCol_ne _ _ _ _ h3, getCol_setCol_ne _ _ _ _ h2,
    getCol_setCol_ne _ _ _ _ h1]

theorem enrichedCore_columns (df : Table)
    (hOD : df.hasCol "Order Date" = true) (hSD : df.hasCol "Ship Date" = true)
    (hY : df.hasCol "OrderYear" = false) (hM : df.hasCol "OrderMonth" = false)
    (hS : df.hasCol "ShipDays" = false) :
    (enrichedCore df).columns
      = df.columns ++ ["OrderYear", "OrderMonth", "ShipDays"] := by
  have c0 : (df.setCol "Order Date" (orderDatesParsed df)).columns = df.columns :=
    columns_setCol_of_mem _ _ _ hOD
  have h1 : (df.setCol "Order Date" (orderDatesParsed df)).hasCol "Ship Date"
      = true := by
    rw [hasCol_setCol_ne _ _ _ _ (by decide)]
    exact hSD
  have c1 : ((df.setCol "Order Date" (orderDatesParsed df)).setCol
      "Ship Date" (shipDatesParsed df)).columns = df.columns := by
    rw [columns_setCol_of_mem _ _ _ h1, c0]
  have h2 : ((df.setCol "Order Date" (orderDatesParsed df)).setCol
      "Ship Date" (shipDatesParsed df)).hasCol "OrderYear" = false := by
    rw [hasCol_setCol_ne _ _ _ _ (by decide), hasCol_setCol_ne _ _ _ _ (by decide)]
    exact hY
  have c2 : (((df.setCol "Order Date" (orderDatesParsed df)).setCol
      "Ship Date" (shipDatesParsed df)).setCol
      "OrderYear" ((orderDatesParsed df).map yearOf)).columns
      = df.columns ++ ["OrderYear"] := by
    rw [columns_setCol_of_not_mem _ _ _ h2, c1]
  have h3 : (((df.setCol "Order Date" (orderDatesParsed df)).setCol
      "Ship Date" (shipDatesParsed df)).setCol
      "OrderYear" ((orderDatesParsed df).map yearOf)).hasCol "OrderMonth"
      = false := by
    rw [hasCol_setCol_ne _ _ _ _ (by decide), hasCol_setCol_ne _ _ _ _ (by decide),
      hasCol_setCol_ne _ _ _ _ (by decide)]
    exact hM
  have c3 : ((((df.setCol "Order Date" (orderDatesParsed df)).setCol
      "Ship Date" (shipDatesParsed df)).setCol
      "OrderYear" ((orderDatesParsed df).map yearOf)).setCol
      "OrderMonth" ((orderDatesParsed df).map monthOf)).columns
      = df.columns ++ ["OrderYear"] ++ ["OrderMonth"] := by
    rw [columns_setCol_of_not_mem _ _ _ h3, c2]
  have h4 : ((((df.setCol "Order Date" (orderDatesParsed df)).setCol
      "Ship Date" (shipDatesParsed df)).setCol
      "OrderYear" ((orderDatesParsed df).map yearOf)).setCol
      "OrderMonth" ((orderDatesParsed df).map monthOf)).hasCol "ShipDays"
      = false := by
    rw [hasCol_setCol_ne _ _ _ _ (by decide), hasCol_setCol_ne _ _ _ _ (by decide),
      hasCol_setCol_ne _ _ _ _ (by decide), hasCol_setCol_ne _ _ _ _ (by decide)]
    exact hS
  unfold enrichedCore
  rw [columns_setCol_of_not_mem _ _ _ h4, c3]
  simp [List.append_assoc]

theorem enrichedCore_lengths (df : Table) (hWF : df.WF)
    (hOD : df.hasCol "Order Date" = true) (hSD : df.hasCol "Ship Date" = true) :
    ∀ p ∈ (enrichedCore df).cols, p.2.length = df.nrows := by
  have lod : (orderDatesParsed df).length = df.nrows := by
    unfold orderDatesParsed
    rw [List.length_map, getColD_length df hWF _ hOD]
  have lsd : (shipDatesParsed df).length = df.nrows := by
    unfold shipDatesParsed
    rw [List.length_map, getColD_length df hWF _ hSD]
  have lsr : (shipDaysRaw df).length = df.nrows := length_shipDaysRaw df hWF hOD hSD
  unfold enrichedCore
  refine length_forall_setCol _ _ _ ?_ lsr
  refine length_forall_setCol _ _ _ ?_ (by rw [List.length_map]; exact lod)
  refine length_forall_setCol _ _ _ ?_ (by rw [List.length_map]; exact lod)
  refine length_forall_setCol _ _ _ ?_ lsd
  exact length_forall_setCol _ _ _ hWF.1 lod

/-- Under the schema precondition, `add_feature_engineering` reduces to the
derivation followed by the conditional median fill. -/
theorem afe_eq_of_has (df : Table)
    (hOD : df.hasCol "Order Date" = true) (hSD : df.hasCol "Ship Date" = true) :
    add_feature_engineering df =
      (if (shipDaysRaw df).any Value.isMissing then
        .ok ((enrichedCore df).setCol "ShipDays" (fillShipDays (shipDaysRaw df)))
      else .ok (enrichedCore df)) := by
  have hfil : requiredCols.filter (fun c => !df.hasCol c) = [] := by
    simp [requiredCols, List.filter_cons, hOD, hSD]
  simp only [add_feature_engineering, hfil, List.isEmpty_nil, if_true]


/-! The claim theorems for enrichment. -/

/-- C1 (amended): for a well-formed raw table holding "Order Date" and
"Ship Date" and none of the three derived column names,
`add_feature_engineering` succeeds with the same row count, the input
columns followed by OrderYear, OrderMonth, ShipDays in that order, all
cells outside the two date columns unchanged, and the two date columns
replaced by their parsed date values (unparsable cells become missing). -/
theorem afe_enrichment_shape (df : Table) (hWF : df.WF)
    (hOD : df.hasCol "Order Date" = true) (hSD : df.hasCol "Ship Date" = true)
    (hY : df.hasCol "OrderYear" = false) (hM : df.hasCol "OrderMonth" = false)
    (hS : df.hasCol "ShipDays" = false) :
    ∃ out, add_feature_engineering df = .ok out
      ∧ out.nrows = df.nrows
      ∧ out.columns = df.columns ++ ["OrderYear", "OrderMonth", "ShipDays"]
      ∧ (∀ c, c ≠ "Order Date" → c ≠ "Ship Date" → c ≠ "OrderYear" →
          c ≠ "OrderMonth" → c ≠ "ShipDays" → out.getCol c = df.getCol c)
      ∧ out.getCol "Order Date" = some (orderDatesParsed df)
      ∧ out.getCol "Ship Date" = some (shipDatesParsed df)
      ∧ out.getCol "OrderYear" = some ((orderDatesParsed df).map yearOf)
      ∧ out.getCol "OrderMonth" = some ((orderDatesParsed df).map monthOf) := by
  rw [afe_eq_of_has df hOD hSD]
  have hcolsE := enrichedCore_columns df hOD hSD hY hM hS
  have hlensE := enrichedCore_lengths df hWF hOD hSD
  have hSDaysE : (enrichedCore df).hasCol "ShipDays" = true :=
    hasCol_of_getCol_some _ _ _ (enrichedCore_getCol_shipDays df)
  by_cases hmiss : (shipDaysRaw df).any Value.isMissing = true
  · rw [if_pos hmiss]
    refine ⟨_, rfl, ?_, ?_, ?_, ?_, ?_, ?_, ?_⟩
    · refine nrows_eq_of_cols _ ?_ ?_
      · apply cols_ne_nil_of_columns_ne_nil
        rw [columns_setCol_of_mem _ _ _ hSDaysE, hcolsE]
        simp
      · refine length_forall_setCol _ _ _ hlensE ?_
        rw [length_fillShipDays]
        exact length_shipDaysRaw df hWF hOD hSD
    · rw [columns_setCol_of_mem _ _ _ hSDaysE, hcolsE]
    · intro c h1 h2 h3 h4 h5
      rw [getCol_setCol_ne _ _ _ _ h5]
      exact enrichedCore_getCol_other df c h1 h2 h3 h4 h5
    · rw [getCol_setCol_ne _ _ _ _ (by decide)]
      exact enrichedCore_getCol_orderDate df
    · rw [getCol_setCol_ne _ _ _ _ (by decide)]
      exact enrichedCore_getCol_shipDate df
    · rw [getCol_setCol_ne _ _ _ _ (by decide)]
      exact enrichedCore_getCol_orderYear df
    · rw [getCol_setCol_ne _ _ _ _ (by decide)]
      exact enrichedCore_getCol_orderMonth df
  · rw [if_neg hmiss]
    refine ⟨_, rfl, ?_, hcolsE, ?_, enrichedCore_getCol_orderDate df,
      enrichedCore_getCol_shipDate df, enrichedCore_getCol_orderYear df,
      enrichedCore_getCol_orderMonth df⟩
    · refine nrows_eq_of_cols _ ?_ hlensE
      apply cols_ne_nil_of_columns_ne_nil
      rw [hcolsE]
      simp
    · intro c h1 h2 h3 h4 h5
      exact enrichedCore_getCol_other df c h1 h2 h3 h4 h5

/-- Witness for C1 at the concrete table `exRaw`. -/
theorem afe_enrichment_shape_witness :
    ∃ out, add_feature_engineering exRaw = .ok out
      ∧ out.nrows = exRaw.nrows
      ∧ out.columns = exRaw.columns ++ ["OrderYear", "OrderMonth", "ShipDays"]
      ∧ (∀ c, c ≠ "Order Date" → c ≠ "Ship Date" → c ≠ "OrderYear" →
          c ≠ "OrderMonth" → c ≠ "ShipDays" → out.getCol c = exRaw.getCol c)
      ∧ out.getCol "Order Date" = some (orderDatesParsed exRaw)
      ∧ out.getCol "Ship Date" = some (shipDatesParsed exRaw)
      ∧ out.getCol "OrderYear" = some ((orderDatesParsed exRaw).map yearOf)
      ∧ out.getCol "OrderMonth" = some ((orderDatesParsed exRaw).map monthOf) :=
  afe_enrichment_shape exRaw (by decide) (by decide) (by decide) (by decide)
    (by decide) (by decide)

/-- C1 counterexample: enrichment rewrites the "Order Date" cells in place
(a parsed string cell is no longer the raw string), and on a table that
already holds an "OrderYear" column the output columns are not the input
columns followed by the three derived names. -/
theorem afe_rewrites_existing_cells :
    (add_feature_engineering exPreYear).map Table.columns
        = .ok ["Order Date", "Ship Date", "OrderYear", "OrderMonth", "ShipDays"]
    ∧ exPreYear.columns ++ ["OrderYear", "OrderMonth", "ShipDays"]
        = ["Order Date", "Ship Date", "OrderYear", "OrderYear", "OrderMonth",
            "ShipDays"]
    ∧ (["Order Date", "Ship Date", "OrderYear", "OrderMonth", "ShipDays"]
        : List String)
        ≠ ["Order Date", "Ship Date", "OrderYear", "OrderYear", "OrderMonth",
            "ShipDays"]
    ∧ (add_feature_engineering exPreYear).map (fun t => t.getCol "Order Date")
        = .ok (some [Value.date ⟨2023, 1, 5⟩])
    ∧ exPreYear.getCol "Order Date" = some [Value.str "2023-01-05"]
    ∧ Value.date ⟨2023, 1, 5⟩ ≠ Value.str "2023-01-05" :=
  ⟨rfl, rfl, by decide, rfl, rfl, by decide⟩

/-- C2: when some but not all derived ShipDays values are missing,
enrichment succeeds and every missing ShipDays cell is replaced by the
median of the non-missing ShipDays values — which equals the median of all
other rows' computed ShipDays, since removing a missing row does not
change the non-missing values. -/
theorem afe_median_imputation (df : Table)
    (hOD : df.hasCol "Order Date" = true) (hSD : df.hasCol "Ship Date" = true)
    (hsome : (shipDaysRaw df).any Value.isMissing = true)
    (hnotall : (shipDaysRaw df).all Value.isMissing = false) :
    ∃ out m, add_feature_engineering df = .ok out
      ∧ pandasMedian ((shipDaysRaw df).filterMap Value.toRat?) = some m
      ∧ out.getCol "ShipDays"
          = some ((shipDaysRaw df).map
              (fun v => if v.isMissing then Value.rat m else v))
      ∧ ∀ (k : Nat) (hk : k < (shipDaysRaw df).length),
          (shipDaysRaw df).get ⟨k, hk⟩ = Value.missing →
          pandasMedian (((shipDaysRaw df).eraseIdx k).filterMap Value.toRat?)
            = some m := by
  have hshape : ∀ v ∈ shipDaysRaw df, v = .missing ∨ ∃ q, v = .rat q :=
    fun v hv => mem_zipWith_shipDays _ _ v hv
  have hne := filterMap_toRat_ne_nil _ hshape hnotall
  obtain ⟨m, hm⟩ := pandasMedian_isSome _ hne
  rw [afe_eq_of_has df hOD hSD, if_pos hsome]
  refine ⟨_, m, rfl, hm, ?_, ?_⟩
  · rw [getCol_setCol_self, fillShipDays_eq_of_median _ _ hm]
  · intro k hk hmiss
    rw [filterMap_toRat_eraseIdx _ k hk hmiss]
    exact hm

/-- Witness for C2 at the three-row table of spec §8 scenario 1. -/
theorem afe_median_imputation_witness :
    ∃ out m, add_feature_engineering exImpute = .ok out
      ∧ pandasMedian ((shipDaysRaw exImpute).filterMap Value.toRat?) = some m
      ∧ out.getCol "ShipDays"
          = some ((shipDaysRaw exImpute).map
              (fun v => if v.isMissing then Value.rat m else v))
      ∧ ∀ (k : Nat) (hk : k < (shipDaysRaw exImpute).length),
          (shipDaysRaw exImpute).get ⟨k, hk⟩ = Value.missing →
          pandasMedian (((shipDaysRaw exImpute).eraseIdx k).filterMap
            Value.toRat?) = some m :=
  afe_median_imputation exImpute (by decide) (by decide) (by decide) (by decide)

/-- C3: on a table whose derived ShipDays values are all missing, the code
does NOT raise: it returns a table whose ShipDays column is entirely
missing (`fillna` with a NaN median is a no-op). -/
theorem afe_all_missing_silent :
    (add_feature_engineering exAllMissing).map (fun t => t.getCol "ShipDays")
      = .ok (some [Value.missing, Value.missing]) := rfl

/-- C7: when a required date column is absent, `add_feature_engineering`
fails with the schema error carrying exactly the missing required
column(s), and returns no table. -/
theorem afe_schema_error (df : Table)
    (h : df.hasCol "Order Date" = false ∨ df.hasCol "Ship Date" = false) :
    add_feature_engineering df
        = .error (.schemaError (requiredCols.filter (fun c => !df.hasCol c)))
      ∧ (df.hasCol "Order Date" = false →
          "Order Date" ∈ requiredCols.filter (fun c => !df.hasCol c))
      ∧ (df.hasCol "Ship Date" = false →
          "Ship Date" ∈ requiredCols.filter (fun c => !df.hasCol c))
      ∧ ∀ c ∈ requiredCols.filter (fun c => !df.hasCol c),
          df.hasCol c = false := by
  refine ⟨?_, ?_, ?_, ?_⟩
  · have hne : (requiredCols.filter (fun c => !df.hasCol c)).isEmpty = false := by
      cases h with
      | inl hod => simp [requiredCols, List.filter_cons, hod]
      | inr hsd =>
        cases hx : df.hasCol "Order Date" <;>
          simp [requiredCols, List.filter_cons, hx, hsd]
    simp only [add_feature_engineering, hne, Bool.false_eq_true, if_false]
  · intro h0
    exact List.mem_filter.mpr ⟨by simp [requiredCols], by simp [h0]⟩
  · intro h0
    exact List.mem_filter.mpr ⟨by simp [requiredCols], by simp [h0]⟩
  · intro c hc
    have := (List.mem_filter.mp hc).2
    simpa using this

/-- Witness for C7 at a table lacking "Ship Date". -/
theorem afe_schema_error_witness :
    add_feature_engineering exNoShip
        = .error (.schemaError (requiredCols.filter (fun c => !exNoShip.hasCol c)))
      ∧ (exNoShip.hasCol "Order Date" = false →
          "Order Date" ∈ requiredCols.filter (fun c => !exNoShip.hasCol c))
      ∧ (exNoShip.hasCol "Ship Date" = false →
          "Ship Date" ∈ requiredCols.filter (fun c => !exNoShip.hasCol c))
      ∧ ∀ c ∈ requiredCols.filter (fun c => !exNoShip.hasCol c),
          exNoShip.hasCol c = false :=
  afe_schema_error exNoShip (Or.inr (by decide))


/-! The feature selector: `prepare_features` never fails and filters the
configured columns. -/

theorem dropIfPresent_eq (t : Table) (c : String) :
    dropIfPresent t c = .ok (t.eraseCol c) := by
  unfold dropIfPresent Table.dropCol Table.eraseCol
  by_cases h : t.hasCol c = true
  · rw [if_pos h, if_pos h]
  · simp only [Bool.not_eq_true] at h
    rw [if_neg (by simp [h]),
      List.filter_eq_self.mpr (by
        intro p hp
        simp only [Table.hasCol] at h
        simpa using List.any_eq_false.mp h p hp)]

theorem foldlM_dropIfPresent (d : List String) (t : Table) :
    List.foldlM dropIfPresent t d = .ok (dropAll t d) := by
  induction d generalizing t with
  | nil => rfl
  | cons c cs ih =>
    rw [List.foldlM_cons, dropIfPresent_eq]
    exact ih (t.eraseCol c)

theorem prepare_features_eq (t : Table) (d : List String) (c : String) :
    prepare_features t d c = .ok ((dropAll t d).eraseCol c) := by
  unfold prepare_features
  rw [foldlM_dropIfPresent]
  exact dropIfPresent_eq _ _

theorem dropAll_cols (t : Table) (d : List String) :
    (dropAll t d).cols = t.cols.filter (fun p => !(d.any (fun s => p.1 == s))) := by
  induction d generalizing t with
  | nil =>
    show t.cols = _
    rw [List.filter_eq_self.mpr (by intro p hp; simp [List.any_nil])]
  | cons c cs ih =>
    show (dropAll (t.eraseCol c) cs).cols = _
    rw [ih]
    unfold Table.eraseCol
    rw [List.filter_filter]
    refine List.filter_congr ?_
    intro p hp
    simp [List.any_cons, Bool.not_or, Bool.and_comm]

theorem prepare_features_cols (t : Table) (d : List String) (target : String) :
    ((dropAll t d).eraseCol target).cols
      = t.cols.filter (fun p => !(d.any (fun s => p.1 == s) || p.1 == target)) := by
  unfold Table.eraseCol
  rw [dropAll_cols, List.filter_filter]
  refine List.filter_congr ?_
  intro p hp
  simp [Bool.not_or, Bool.and_comm]

/-- C4: `prepare_features` always returns a table; the result keeps, in
order and untouched, exactly the columns whose name is neither in
`drop_cols` nor equal to `target_col`. -/
theorem prepare_features_selects (t : Table) (d : List String) (target : String) :
    ∃ out, prepare_features t d target = .ok out
      ∧ out.cols = t.cols.filter
          (fun p => !(d.any (fun s => p.1 == s) || p.1 == target))
      ∧ out.columns = t.columns.filter
          (fun c => !(d.any (fun s => c == s) || c == target)) := by
  refine ⟨_, prepare_features_eq t d target, prepare_features_cols t d target, ?_⟩
  show Table.columns ((dropAll t d).eraseCol target) = _
  rw [Table.columns, prepare_features_cols t d target]
  show List.map Prod.fst
      (t.cols.filter ((fun c => !(d.any (fun s => c == s) || c == target))
        ∘ Prod.fst)) = _
  rw [← List.filter_map]
  rfl

/-- C9: the selector is a pure function of its arguments — two calls with
identical arguments return identical results, and in particular identical
column lists. -/
theorem prepare_features_deterministic (t1 t2 : Table) (d1 d2 : List String)
    (c1 c2 : String) (ht : t1 = t2) (hd : d1 = d2) (hc : c1 = c2) :
    prepare_features t1 d1 c1 = prepare_features t2 d2 c2
      ∧ (prepare_features t1 d1 c1).map Table.columns
          = (prepare_features t2 d2 c2).map Table.columns := by
  subst ht
  subst hd
  subst hc
  exact ⟨rfl, rfl⟩

/-- Witness for C9 at concrete arguments. -/
theorem prepare_features_deterministic_witness :
    prepare_features exSeg [] "Segment" = prepare_features exSeg [] "Segment"
      ∧ (prepare_features exSeg [] "Segment").map Table.columns
          = (prepare_features exSeg [] "Segment").map Table.columns :=
  prepare_features_deterministic exSeg exSeg [] [] "Segment" "Segment" rfl rfl rfl

/-- C10: when the target column is also listed in `drop_cols`, the loop's
guarded drop removes it and the target step is a silent no-op: the call
returns (no error) the table with that column removed once. -/
theorem prepare_features_target_in_drop (t : Table) (d : List String)
    (target : String) (h : target ∈ d) :
    prepare_features t d target = .ok (dropAll t d)
      ∧ (dropAll t d).hasCol target = false := by
  have hno : (dropAll t d).hasCol target = false := by
    simp only [Table.hasCol, dropAll_cols]
    rw [List.any_eq_false]
    intro p hp
    obtain ⟨hmem, hpred⟩ := List.mem_filter.mp hp
    intro hpt
    have hany : d.any (fun s => p.1 == s) = true :=
      List.any_eq_true.mpr ⟨target, h, hpt⟩
    rw [hany] at hpred
    exact absurd hpred (by simp)
  refine ⟨?_, hno⟩
  rw [prepare_features_eq]
  have hself : (dropAll t d).cols.filter (fun p => !(p.1 == target))
      = (dropAll t d).cols := by
    rw [List.filter_eq_self]
    intro p hp
    simp only [Table.hasCol] at hno
    simpa using List.any_eq_false.mp hno p hp
  show Except.ok (Table.mk ((dropAll t d).cols.filter (fun p => !(p.1 == target))))
    = Except.ok (dropAll t d)
  rw [hself]

/-- Witness for C10 at concrete arguments. -/
theorem prepare_features_target_in_drop_witness :
    prepare_features exSeg ["Row ID", "Segment"] "Segment"
        = .ok (dropAll exSeg ["Row ID", "Segment"])
      ∧ (dropAll exSeg ["Row ID", "Segment"]).hasCol "Segment" = false :=
  prepare_features_target_in_drop exSeg ["Row ID", "Segment"] "Segment" (by decide)


/-! The prediction blocks. -/

/-- C5 (amended): a successful prediction run returns the raw table with
the prediction column appended — its name not previously a raw column —
holding one predicted value per row in row order; every raw column is
unchanged. If the name already exists in the raw table the assignment
overwrites that column in place instead of appending (see the
counterexample). -/
theorem run_prediction_output :
    (∀ (raw enriched : Table) (a : Artifact) (outC : Table),
      raw.hasCol "Predicted Segment" = false →
      run_prediction_cls raw enriched a = .ok outC →
      outC.columns = raw.columns ++ ["Predicted Segment"]
        ∧ (∀ c, c ≠ "Predicted Segment" → outC.getCol c = raw.getCol c)
        ∧ outC.getCol "Predicted Segment"
            = some (a.predict ((dropAll enriched a.drop_cols).eraseCol
                a.target_col))
        ∧ (a.predict ((dropAll enriched a.drop_cols).eraseCol
            a.target_col)).length = raw.nrows)
    ∧ (∀ (raw enriched : Table) (a : Artifact) (outR : Table),
      raw.hasCol ("Predicted " ++ a.target_col) = false →
      run_prediction_reg raw enriched a = .ok outR →
      outR.columns = raw.columns ++ ["Predicted " ++ a.target_col]
        ∧ (∀ c, c ≠ "Predicted " ++ a.target_col → outR.getCol c = raw.getCol c)
        ∧ outR.getCol ("Predicted " ++ a.target_col)
            = some (a.predict ((dropAll enriched a.drop_cols).eraseCol
                a.target_col))
        ∧ (a.predict ((dropAll enriched a.drop_cols).eraseCol
            a.target_col)).length = raw.nrows) := by
  constructor
  · intro raw enriched a outC hfC hC
    unfold run_prediction_cls at hC
    rw [prepare_features_eq] at hC
    have hC' : raw.setColChecked "Predicted Segment"
        (a.predict ((dropAll enriched a.drop_cols).eraseCol a.target_col))
        = .ok outC := hC
    unfold Table.setColChecked at hC'
    by_cases hlen : (a.predict ((dropAll enriched a.drop_cols).eraseCol
        a.target_col)).length = raw.nrows
    · rw [if_pos hlen] at hC'
      injection hC' with hoc
      subst hoc
      refine ⟨columns_setCol_of_not_mem _ _ _ hfC, ?_,
        getCol_setCol_self _ _ _, hlen⟩
      intro c hcne
      exact getCol_setCol_ne _ _ _ _ hcne
    · rw [if_neg hlen] at hC'
      exact Except.noConfusion hC'
  · intro raw enriched a outR hfR hR
    unfold run_prediction_reg at hR
    rw [prepare_features_eq] at hR
    have hR' : raw.setColChecked ("Predicted " ++ a.target_col)
        (a.predict ((dropAll enriched a.drop_cols).eraseCol a.target_col))
        = .ok outR := hR
    unfold Table.setColChecked at hR'
    by_cases hlen : (a.predict ((dropAll enriched a.drop_cols).eraseCol
        a.target_col)).length = raw.nrows
    · rw [if_pos hlen] at hR'
      injection hR' with hor
      subst hor
      refine ⟨columns_setCol_of_not_mem _ _ _ hfR, ?_,
        getCol_setCol_self _ _ _, hlen⟩
      intro c hcne
      exact getCol_setCol_ne _ _ _ _ hcne
    · rw [if_neg hlen] at hR'
      exact Except.noConfusion hR'

/-- Witness for C5: the classification part at a one-row table whose
prediction name is fresh, and the regression part at a raw table that
already holds a "Predicted Segment" column but no "Predicted Sales" —
that run appends the regression column regardless of the foreign name. -/
theorem run_prediction_output_witness :
    ((Table.mk [("A", [Value.int 1]), ("Predicted Segment", [Value.int 7])]).columns
        = exRawA.columns ++ ["Predicted Segment"]
      ∧ (∀ c, c ≠ "Predicted Segment" →
          (Table.mk [("A", [Value.int 1]),
            ("Predicted Segment", [Value.int 7])]).getCol c = exRawA.getCol c)
      ∧ (Table.mk [("A", [Value.int 1]),
          ("Predicted Segment", [Value.int 7])]).getCol "Predicted Segment"
          = some (stubArtifact.predict ((dropAll exRawA
              stubArtifact.drop_cols).eraseCol stubArtifact.target_col))
      ∧ (stubArtifact.predict ((dropAll exRawA
          stubArtifact.drop_cols).eraseCol stubArtifact.target_col)).length
          = exRawA.nrows)
    ∧ ((Table.mk [("A", [Value.int 1]), ("Predicted Segment", [Value.str "old"]),
          ("Predicted Sales", [Value.int 7])]).columns
        = exRawP.columns ++ ["Predicted " ++ stubArtifact.target_col]
      ∧ (∀ c, c ≠ "Predicted " ++ stubArtifact.target_col →
          (Table.mk [("A", [Value.int 1]),
            ("Predicted Segment", [Value.str "old"]),
            ("Predicted Sales", [Value.int 7])]).getCol c = exRawP.getCol c)
      ∧ (Table.mk [("A", [Value.int 1]), ("Predicted Segment", [Value.str "old"]),
          ("Predicted Sales", [Value.int 7])]).getCol
            ("Predicted " ++ stubArtifact.target_col)
          = some (stubArtifact.predict ((dropAll exRawP
              stubArtifact.drop_cols).eraseCol stubArtifact.target_col))
      ∧ (stubArtifact.predict ((dropAll exRawP
          stubArtifact.drop_cols).eraseCol stubArtifact.target_col)).length
          = exRawP.nrows) :=
  ⟨run_prediction_output.1 exRawA exRawA stubArtifact
      (Table.mk [("A", [Value.int 1]), ("Predicted Segment", [Value.int 7])])
      (by decide) rfl,
    run_prediction_output.2 exRawP exRawP stubArtifact
      (Table.mk [("A", [Value.int 1]), ("Predicted Segment", [Value.str "old"]),
        ("Predicted Sales", [Value.int 7])])
      (by decide) rfl⟩

/-- C5 counterexample: when the raw table already holds a column named
"Predicted Segment", a successful classification run returns a table with
the SAME columns — no column is added — and the pre-existing cell values
are replaced by the predictions. -/
theorem run_prediction_overwrites_existing :
    run_prediction_cls exRawP exRawP consArtifact
        = .ok (Table.mk [("A", [Value.int 1]),
            ("Predicted Segment", [Value.str "Consumer"])])
      ∧ (Table.mk [("A", [Value.int 1]),
          ("Predicted Segment", [Value.str "Consumer"])]).columns
          = exRawP.columns
      ∧ exRawP.getCol "Predicted Segment" = some [Value.str "old"]
      ∧ Value.str "Consumer" ≠ Value.str "old" :=
  ⟨rfl, rfl, rfl, by decide⟩

/-- C6: when the predictor returns a sequence whose length differs from the
raw table's row count, both prediction blocks fail with the length-mismatch
error (the spec's PredictionError) and return no table. -/
theorem run_prediction_length_mismatch (raw enriched : Table) (a : Artifact)
    (xpred : Table)
    (hx : prepare_features enriched a.drop_cols a.target_col = .ok xpred)
    (hlen : (a.predict xpred).length ≠ raw.nrows) :
    run_prediction_cls raw enriched a
        = .error (.lengthMismatch (a.predict xpred).length raw.nrows)
      ∧ run_prediction_reg raw enriched a
        = .error (.lengthMismatch (a.predict xpred).length raw.nrows) := by
  constructor
  · unfold run_prediction_cls
    rw [hx]
    show raw.setColChecked "Predicted Segment" (a.predict xpred) = _
    unfold Table.setColChecked
    rw [if_neg hlen]
  · unfold run_prediction_reg
    rw [hx]
    show raw.setColChecked ("Predicted " ++ a.target_col) (a.predict xpred) = _
    unfold Table.setColChecked
    rw [if_neg hlen]

/-- Witness for C6: a stub predictor returning two values on a one-row
table makes both blocks fail. -/
theorem run_prediction_length_mismatch_witness :
    run_prediction_cls exRawA exRawA badArtifact
        = .error (.lengthMismatch 2 1)
      ∧ run_prediction_reg exRawA exRawA badArtifact
        = .error (.lengthMismatch 2 1) :=
  run_prediction_length_mismatch exRawA exRawA badArtifact exRawA rfl (by decide)

/-! The dataset loader. -/

/-- C8 (amended): `load_dataset` raises when the path does not exist,
otherwise attempts the Latin-1 read FIRST and falls back to the default
UTF-8 read only when the Latin-1 read fails; when neither read parses it
fails with the load error. -/
theorem load_dataset_fallback (path : String) (f : CsvFile) :
    (f.pathExists = false → load_dataset path f = .error (.fileNotFound path))
      ∧ (∀ t, f.pathExists = true → f.readLatin1 = some t →
          load_dataset path f = .ok t)
      ∧ (∀ t, f.pathExists = true → f.readLatin1 = none → f.readUtf8 = some t →
          load_dataset path f = .ok t)
      ∧ (f.pathExists = true → f.readLatin1 = none → f.readUtf8 = none →
          load_dataset path f = .error .parseFailed) := by
  unfold load_dataset
  refine ⟨?_, ?_, ?_, ?_⟩
  · intro h
    simp [h]
  · intro t h1 h2
    simp [h1, h2]
  · intro t h1 h2 h3
    simp [h1, h2, h3]
  · intro h1 h2 h3
    simp [h1, h2, h3]

/-- C8 counterexample: on a file whose UTF-8 read succeeds (producing
`tblA`) while the Latin-1 read also succeeds (producing a different table
`tblB`), the code returns the Latin-1 result — so UTF-8 is not attempted
first, contrary to the claim (the spec-ordered loader returns `tblA`). -/
theorem load_dataset_latin1_wins :
    exCsv.readUtf8 = some tblA
      ∧ load_dataset "data.csv" exCsv = .ok tblB
      ∧ tblB ≠ tblA
      ∧ load_dataset_specOrder "data.csv" exCsv = .ok tblA :=
  ⟨rfl, rfl, by decide, rfl⟩

end Superstore
